import Mathlib

/-!
Verification development for the message-processing core of a chat
auto-reply daemon (access-control store, session store, rate limiter,
message pipeline).  The definitions below are a shallow embedding of the
Python source: `sessions.py` (SessionManager), `pairing.py` (PairingStore)
and `daemon.py` (AutoReplyDaemon).  Wall-clock instants (`time.time()`,
`datetime.now()`, ISO timestamp strings that the source parses back with
`datetime.fromisoformat`) are modelled as integers measured in seconds;
each operation receives the current instant as an explicit `now` argument.
String-keyed Python dicts and the JSON/JSONL files mirroring them are
modelled as association lists whose binding order is never observed;
`upsertKey`/`delKey` below are the dict update and delete.
-/

namespace AutoReply

/-- Association-list lookup for string-keyed Python dicts. -/
def lookupKey {α : Type} (k : String) : List (String × α) → Option α
  | [] => none
  | (k', v) :: rest => if k = k' then some v else lookupKey k rest

/-- Dict deletion (`del d[k]`): removes every binding of `k`. -/
def delKey {α : Type} (k : String) (l : List (String × α)) : List (String × α) :=
  l.filter (fun p => !(p.1 == k))

/-- Dict update (`d[k] = v`): `k` now maps to `v`, all other keys unchanged. -/
def upsertKey {α : Type} (k : String) (v : α) (l : List (String × α)) : List (String × α) :=
  (k, v) :: delKey k l

/-! ## Session store (`sessions.py`) -/

/-- Models `sessions.SessionMessage`: one line of a session's JSONL transcript. -/
structure SessionMessage where
  role : String
  content : String
  timestamp : ℤ
  sender_jid : Option String := none
  sender_name : Option String := none
  type : Option String := none
deriving Repr, DecidableEq

/-- Models `sessions.SessionMetadata`: the per-session entry of the metadata index. -/
structure SessionMetadata where
  session_key : String
  last_activity : ℤ
  message_count : Nat := 0
  estimated_tokens : Nat := 0
  created_at : ℤ := 0
  sender_name : String := ""
deriving Repr, DecidableEq

/-- The state owned by `sessions.SessionManager`: configuration, the
in-memory metadata dict, its persisted mirror (`metadata.json`, written
by `_save_metadata`), and the per-session JSONL log files keyed by their
file name. -/
structure SessionStore where
  idle_reset_minutes : ℤ
  max_history_tokens : Nat
  metadata : List (String × SessionMetadata)
  metadataFile : List (String × SessionMetadata)
  logs : List (String × List SessionMessage)
deriving Repr, DecidableEq

/-- Models `SessionManager._estimate_tokens`: `len(text) // 4`. -/
def estimate_tokens (text : String) : Nat := text.length / 4

/-- Models `SessionManager.session_key_for_jid`. -/
def session_key_for_jid (jid : String) : String := "whatsapp:" ++ jid

/-- Models `SessionManager._session_path`: the key with `:` and `/` replaced by `_`
(the constant directory and `.jsonl` suffix are dropped). -/
def session_path (key : String) : String :=
  String.mk (key.data.map (fun c => if c = ':' ∨ c = '/' then '_' else c))

/-- Models `SessionManager.get_history`: replay the JSONL log; empty if the file
does not exist. -/
def get_history (s : SessionStore) (key : String) : List SessionMessage :=
  (lookupKey (session_path key) s.logs).getD []

/-- Models `SessionManager._create_session`. -/
def create_session (s : SessionStore) (now : ℤ) (key : String) (sender_name : String) :
    SessionStore × String :=
  let meta : SessionMetadata :=
    { session_key := key, last_activity := now, message_count := 0,
      estimated_tokens := 0, created_at := now, sender_name := sender_name }
  let md := upsertKey key meta s.metadata
  ({ s with metadata := md, metadataFile := md }, key)

/-- Models `SessionManager.reset_session`: if the log file exists, overwrite it with
a single synthetic reset message; if the key is tracked, delete its metadata
entry and save. -/
def reset_session (s : SessionStore) (now : ℤ) (key : String) (reason : String) :
    SessionStore :=
  let path := session_path key
  let reset_msg : SessionMessage :=
    { role := "system", content := "Session reset: " ++ reason,
      timestamp := now, type := some "reset" }
  let s1 :=
    match lookupKey path s.logs with
    | some _ => { s with logs := upsertKey path [reset_msg] s.logs }
    | none => s
  match lookupKey key s1.metadata with
  | some _ =>
    let md := delKey key s1.metadata
    { s1 with metadata := md, metadataFile := md }
  | none => s1

/-- Models `SessionManager.get_or_create_session`: idle check
(`datetime.now() - last > timedelta(minutes=idle_reset_minutes)`) against
the tracked metadata, resetting and recreating on idle timeout. -/
def get_or_create_session (s : SessionStore) (now : ℤ) (jid : String) (sender_name : String) :
    SessionStore × String :=
  let key := session_key_for_jid jid
  match lookupKey key s.metadata with
  | some meta =>
    if now - meta.last_activity > s.idle_reset_minutes * 60 then
      create_session (reset_session s now key "idle timeout") now key sender_name
    else (s, key)
  | none => create_session s now key sender_name

/-- Models `SessionManager.add_message`: append to the JSONL log (creating the file
if absent); if the key is tracked, bump the counters, set `last_activity`
to the message's timestamp, take over a non-empty sender name, and save. -/
def add_message (s : SessionStore) (key : String) (msg : SessionMessage) :
    SessionStore :=
  let path := session_path key
  let logs' := upsertKey path ((lookupKey path s.logs).getD [] ++ [msg]) s.logs
  match lookupKey key s.metadata with
  | some meta =>
    let meta' : SessionMetadata :=
      { meta with
        message_count := meta.message_count + 1,
        estimated_tokens := meta.estimated_tokens + estimate_tokens msg.content,
        last_activity := msg.timestamp,
        sender_name :=
          match msg.sender_name with
          | some n => if n = "" then meta.sender_name else n
          | none => meta.sender_name }
    let md := upsertKey key meta' s.metadata
    { s with logs := logs', metadata := md, metadataFile := md }
  | none => { s with logs := logs' }

/-- Models `SessionManager.compact_session`: overwrite the log with a single
synthetic `system`/`compaction` message; if the key is tracked, reset the
counters (`last_activity` is left alone) and save. -/
def compact_session (s : SessionStore) (now : ℤ) (key : String) (summary : String) :
    SessionStore :=
  let path := session_path key
  let compaction_msg : SessionMessage :=
    { role := "system", content := summary, timestamp := now,
      type := some "compaction" }
  let logs' := upsertKey path [compaction_msg] s.logs
  match lookupKey key s.metadata with
  | some meta =>
    let meta' := { meta with message_count := 1,
                             estimated_tokens := estimate_tokens summary }
    let md := upsertKey key meta' s.metadata
    { s with logs := logs', metadata := md, metadataFile := md }
  | none => { s with logs := logs' }

/-- Models `SessionManager.needs_compaction`. -/
def needs_compaction (s : SessionStore) (key : String) : Bool :=
  match lookupKey key s.metadata with
  | some meta => meta.estimated_tokens > s.max_history_tokens
  | none => false

/-- The `{role, content}` records handed to the reply backend. -/
structure ApiMessage where
  role : String
  content : String
deriving Repr, DecidableEq

/-- The loop body of `SessionManager.get_history_as_api_messages`. -/
def api_messages_of : List SessionMessage → List ApiMessage
  | [] => []
  | m :: rest =>
    if m.role = "user" ∨ m.role = "assistant" then
      { role := m.role, content := m.content } :: api_messages_of rest
    else if m.role = "system" ∧ m.type = some "compaction" then
      { role := "user",
        content := "[Previous conversation summary: " ++ m.content ++ "]" }
        :: api_messages_of rest
    else api_messages_of rest

/-- Models `SessionManager.get_history_as_api_messages`. -/
def get_history_as_api_messages (s : SessionStore) (key : String) : List ApiMessage :=
  api_messages_of (get_history s key)

/-! ## Access-control store (`pairing.py`) -/

/-- Models `pairing.ContactStatus`. -/
inductive ContactStatus : Type
  | unknown
  | pending
  | approved
  | blocked
deriving Repr, DecidableEq

/-- Models `pairing.Contact`: one row of the `contacts` table. -/
structure Contact where
  jid : String
  status : ContactStatus
  pairing_code : Option String := none
  code_expires_at : Option ℤ := none
  approved_at : Option ℤ := none
  name : Option String := none
deriving Repr, DecidableEq

/-- The `contacts` table, rows in insertion (rowid) order, which is the
order an unordered SQLite scan visits them in. `jid` is the primary key,
so reachable tables hold at most one row per jid. -/
abbrev PairingTable : Type := List Contact

/-- Models `PairingStore.get_contact`: first row with the jid, defaulting to a
fresh Unknown contact when absent. -/
def get_contact (tbl : PairingTable) (jid : String) : Contact :=
  match List.find? (fun c => c.jid == jid) tbl with
  | some c => c
  | none => { jid := jid, status := ContactStatus.unknown }

/-- Models `PairingStore._update_status`: SQL UPDATE of the row's status, or an
INSERT of a bare `(jid, status)` row when no row matched. -/
def update_status (tbl : PairingTable) (jid : String) (st : ContactStatus) :
    PairingTable :=
  if List.any tbl (fun c => c.jid == jid) then
    List.map (fun c => if c.jid = jid then { c with status := st } else c) tbl
  else
    tbl ++ [{ jid := jid, status := st }]

/-- Models `PairingStore.check_access`: lazy expiry of a Pending contact's code as
a side effect of the read, returning the (possibly updated) table. -/
def check_access (tbl : PairingTable) (now : ℤ) (jid : String) :
    PairingTable × ContactStatus :=
  let c := get_contact tbl jid
  match c.status, c.code_expires_at with
  | ContactStatus.pending, some expires =>
    if now > expires then (update_status tbl jid ContactStatus.unknown, ContactStatus.unknown)
    else (tbl, c.status)
  | _, _ => (tbl, c.status)

/-- Models `PairingStore.generate_pairing_code`: upsert a Pending row with the
freshly drawn `code` and expiry `now + 60 * code_expiry_minutes`;
`COALESCE(excluded.name, contacts.name)` keeps the old display name when
none is supplied. -/
def generate_pairing_code (tbl : PairingTable) (now code_expiry_minutes : ℤ)
    (code : String) (jid : String) (name : Option String) : PairingTable :=
  let expires := now + code_expiry_minutes * 60
  if List.any tbl (fun c => c.jid == jid) then
    List.map (fun c =>
      if c.jid = jid then
        { c with status := ContactStatus.pending, pairing_code := some code,
                 code_expires_at := some expires,
                 name := match name with | some n => some n | none => c.name }
      else c) tbl
  else
    tbl ++
      [{ jid := jid, status := ContactStatus.pending, pairing_code := some code,
         code_expires_at := some expires, name := name }]

/-- The UPDATE `status = approved, approved_at = now WHERE jid = ?` shared
by `approve_contact` and `approve_by_code` (no insertion). -/
def approve_rows (tbl : PairingTable) (now : ℤ) (jid : String) : PairingTable :=
  List.map (fun c =>
    if c.jid = jid then
      { c with status := ContactStatus.approved, approved_at := some now }
    else c) tbl

/-- The SELECT of `approve_by_code`: first row (scan order) whose
`pairing_code` matches and whose status is `pending`. -/
def find_pending_by_code (tbl : PairingTable) (code : String) : Option Contact :=
  List.find? (fun c =>
    decide (c.pairing_code = some code ∧ c.status = ContactStatus.pending)) tbl

/-- Models `PairingStore.approve_by_code`: approve the found Pending row unless its
code has expired; `none` (and no write) when no row matches or the code is
past expiry. -/
def approve_by_code (tbl : PairingTable) (now : ℤ) (code : String) :
    PairingTable × Option String :=
  match find_pending_by_code tbl code with
  | none => (tbl, none)
  | some c =>
    match c.code_expires_at with
    | some expires =>
      if now > expires then (tbl, none)
      else (approve_rows tbl now c.jid, some c.jid)
    | none => (approve_rows tbl now c.jid, some c.jid)

/-! ## Daemon pipeline (`daemon.py`) -/

/-- The configuration fields `AutoReplyDaemon.process_message` reads. -/
structure DaemonConfig where
  pairing_enabled : Bool
  block_groups : Bool
  rate_limit_seconds : ℤ
  code_expiry_minutes : ℤ
deriving Repr

/-- The external collaborators of the pipeline: the reply backend
(`llm.generate_reply`, which already converts its own failures into an
apology string), the summarizer, the chunker, the per-chunk delivery
outcome of `bridge.send_message`, and the random code drawn by
`generate_pairing_code`. -/
structure PipelineEnv where
  reply : List ApiMessage → String → String
  summarize : List ApiMessage → String
  chunk : String → List String
  sendOne : String → Bool × String
  freshCode : String

/-- The mutable daemon state the pipeline touches: the pairing table, the
session store, and the in-memory `_last_reply_time` map (absent senders
read as 0 via `defaultdict(float)` / `.get(sender, 0)`). -/
structure DaemonState where
  pairing : PairingTable
  sessions : SessionStore
  last_reply_time : List (String × ℤ)

/-- Models `BridgeClient.send_chunked`: send chunks in order, record each outcome,
stop at the first failure. -/
def send_chunked (sendOne : String → Bool × String) : List String → List (Bool × String)
  | [] => []
  | c :: rest =>
    let r := sendOne c
    if r.1 then r :: send_chunked sendOne rest else [r]

/-- Media normalization (`daemon.py` lines 156-159). -/
def normalize_content (media_type content : String) : String :=
  if media_type ≠ "" ∧ content = "" then "[Sent a " ++ media_type ++ " message]"
  else if media_type ≠ "" ∧ content ≠ "" then "[Sent a " ++ media_type ++ "] " ++ content
  else content

/-- The tail of `_process_message_locked` (lines 183-200): reply generation,
chunked delivery, the conditional append of the assistant turn, and the
unconditional rate-limit timestamp update. -/
def reply_and_deliver (env : PipelineEnv) (now : ℤ)
    (sender_jid sender_name session_key : String) (st : DaemonState) : DaemonState :=
  let history := get_history_as_api_messages st.sessions session_key
  let reply := env.reply history sender_name
  let chunks := env.chunk reply
  let results := send_chunked env.sendOne chunks
  let any_success := List.any results (fun r => r.1)
  let sessions' :=
    if any_success then
      add_message st.sessions session_key
        { role := "assistant", content := reply, timestamp := now }
    else st.sessions
  { st with sessions := sessions',
            last_reply_time := upsertKey sender_jid now st.last_reply_time }

/-- Models `_process_message_locked` after the pairing gate (lines 156-200):
media normalization, empty-content drop, session get-or-create, inbound
append, compaction check, then `reply_and_deliver`. -/
def pipeline_after_gate (env : PipelineEnv) (now : ℤ)
    (sender_jid content sender_name : String) (timestamp : ℤ) (media_type : String)
    (st : DaemonState) : DaemonState :=
  let content := normalize_content media_type content
  if content = "" then st
  else
    let r := get_or_create_session st.sessions now sender_jid sender_name
    let sessions1 := r.1
    let session_key := r.2
    let sessions2 := add_message sessions1 session_key
      { role := "user", content := content, timestamp := timestamp,
        sender_jid := some sender_jid, sender_name := some sender_name }
    let sessions3 :=
      if needs_compaction sessions2 session_key then
        compact_session sessions2 now session_key
          (env.summarize (get_history_as_api_messages sessions2 session_key))
      else sessions2
    reply_and_deliver env now sender_jid sender_name session_key
      { st with sessions := sessions3 }

/-- Models `AutoReplyDaemon._process_message_locked` (lines 121-200): the pairing
gate followed by `pipeline_after_gate`. -/
def process_message_locked (cfg : DaemonConfig) (env : PipelineEnv) (now : ℤ)
    (sender_jid content sender_name : String) (timestamp : ℤ) (media_type : String)
    (st : DaemonState) : DaemonState :=
  if cfg.pairing_enabled then
    let pr := check_access st.pairing now sender_jid
    let st1 := { st with pairing := pr.1 }
    match pr.2 with
    | ContactStatus.blocked => st1
    | ContactStatus.unknown =>
      let pairing2 := generate_pairing_code st1.pairing now cfg.code_expiry_minutes
        env.freshCode sender_jid (some sender_name)
      { st1 with pairing := pairing2,
                 last_reply_time := upsertKey sender_jid now st1.last_reply_time }
    | ContactStatus.pending =>
      { st1 with last_reply_time := upsertKey sender_jid now st1.last_reply_time }
    | ContactStatus.approved =>
      pipeline_after_gate env now sender_jid content sender_name timestamp media_type st1
  else
    pipeline_after_gate env now sender_jid content sender_name timestamp media_type st

/-- Models `AutoReplyDaemon.process_message` (lines 89-119): self-message filter,
group filter, rate gate, then the per-sender-serialized pipeline body. -/
def process_message (cfg : DaemonConfig) (env : PipelineEnv) (now : ℤ)
    (sender_jid content : String) (is_from_me is_group : Bool)
    (sender_name : String) (timestamp : ℤ) (media_type : String)
    (st : DaemonState) : DaemonState :=
  if is_from_me then st
  else if is_group && cfg.block_groups then st
  else if now - (lookupKey sender_jid st.last_reply_time).getD 0 < cfg.rate_limit_seconds then st
  else process_message_locked cfg env now sender_jid content sender_name timestamp media_type st

/-! ## Replay and derivability of the metadata index -/

/-- Token count obtained by replaying a log from scratch:
`sum of len(content) // 4` over its messages. -/
def replay_tokens (log : List SessionMessage) : Nat :=
  (log.map (fun m => estimate_tokens m.content)).sum

/-- Predicate picking out the synthetic marker `reset_session` writes. -/
def is_reset_marker (m : SessionMessage) : Prop :=
  m.role = "system" ∧ m.type = some "reset"

instance (m : SessionMessage) : Decidable (is_reset_marker m) :=
  inferInstanceAs (Decidable (_ ∧ _))

/-- A log with the synthetic reset marker left behind by `reset_session`
(always the head, since `reset_session` rewrites the whole file) removed. -/
def dropLeadingReset : List SessionMessage → List SessionMessage
  | [] => []
  | m :: rest => if is_reset_marker m then rest else m :: rest

/-- The session store's metadata counters are derivable by replaying the
durable logs: for every tracked key, `message_count` and `estimated_tokens`
equal the length and token sum of the key's log once the leading reset
marker is discounted. -/
def MetadataDerivable (s : SessionStore) : Prop :=
  ∀ k meta, lookupKey k s.metadata = some meta →
    meta.message_count = (dropLeadingReset (get_history s k)).length ∧
    meta.estimated_tokens = replay_tokens (dropLeadingReset (get_history s k))

/-- No tracked key other than `key` is stored under `key`'s log file name
(`_session_path` flattens `:` and `/` to `_`, so distinct keys can collide;
this rules that out for the key being operated on). -/
def PathInjAt (s : SessionStore) (key : String) : Prop :=
  ∀ k meta, lookupKey k s.metadata = some meta →
    session_path k = session_path key → k = key

/-! ## Spec-side projection (for the reply-input refinement claim) -/

/-- The reply-input projection exactly as the specification words it,
message by message: `user`/`assistant` pass through unchanged; a `system`
message of kind `compaction` becomes a `user` message wrapping the summary
in the fixed bracketed prefix; `system` messages of kind `reset` and of any
other kind are dropped. -/
def reply_input_spec (m : SessionMessage) : Option ApiMessage :=
  if m.role = "user" ∨ m.role = "assistant" then
    some { role := m.role, content := m.content }
  else if m.type = some "compaction" then
    some { role := "user",
           content := "[Previous conversation summary: " ++ m.content ++ "]" }
  else none

/-! ## Concrete states used by counterexamples and witnesses -/

/-- An empty session store with the source's default configuration. -/
def exC1Store0 : SessionStore :=
  { idle_reset_minutes := 60, max_history_tokens := 50000,
    metadata := [], metadataFile := [], logs := [] }

def exC1Key : String := session_key_for_jid "alice"

def exC1Msg : SessionMessage :=
  { role := "user", content := "hello!", timestamp := 1,
    sender_jid := some "alice", sender_name := some "Alice" }

/-- After `get_or_create_session` for a fresh sender. -/
def exC1Store1 : SessionStore := (get_or_create_session exC1Store0 0 "alice" "Alice").1

/-- After appending one user message. -/
def exC1Store2 : SessionStore := add_message exC1Store1 exC1Key exC1Msg

/-- After `reset_session`: the log now holds only the reset marker and the
metadata entry is deleted. -/
def exC1Store3 : SessionStore := reset_session exC1Store2 2 exC1Key "manual"

/-- After `get_or_create_session` recreates the session: fresh zeroed
metadata over a log that still holds the reset marker. -/
def exC1Store4 : SessionStore := (get_or_create_session exC1Store3 3 "alice" "Alice").1

/-- A Pending contact whose code expired at time 10. -/
def exC5ContactA : Contact :=
  { jid := "alice", status := ContactStatus.pending,
    pairing_code := some "123456", code_expires_at := some 10 }

/-- A Pending contact holding the same code, unexpired until time 100. -/
def exC5ContactB : Contact :=
  { jid := "bob", status := ContactStatus.pending,
    pairing_code := some "123456", code_expires_at := some 100 }

def exC5Table : PairingTable := [exC5ContactA, exC5ContactB]

/-- A single Pending contact with an unexpired code (C5 witness). -/
def wC5Contact : Contact :=
  { jid := "bob", status := ContactStatus.pending,
    pairing_code := some "654321", code_expires_at := some 100 }

def wC5Table : PairingTable := [wC5Contact]

/-- A Pending contact whose code expired at time 10 (C4 witness). -/
def wC4Contact : Contact :=
  { jid := "carol", status := ContactStatus.pending,
    pairing_code := some "999999", code_expires_at := some 10,
    name := some "Carol" }

def wC4Table : PairingTable := [wC4Contact]

/-- A store with one session idle since time 0 (C3 witness). -/
def wC3Store : SessionStore :=
  { idle_reset_minutes := 60, max_history_tokens := 50000,
    metadata := [("whatsapp:alice",
      { session_key := "whatsapp:alice", last_activity := 0, message_count := 1,
        estimated_tokens := 1, created_at := 0, sender_name := "Alice" })],
    metadataFile := [("whatsapp:alice",
      { session_key := "whatsapp:alice", last_activity := 0, message_count := 1,
        estimated_tokens := 1, created_at := 0, sender_name := "Alice" })],
    logs := [("whatsapp_alice",
      [{ role := "user", content := "hello!", timestamp := 0,
         sender_jid := some "alice", sender_name := some "Alice" }])] }

/-- A log exercising all four reply-input projection cases (C7 witness). -/
def wC7Store : SessionStore :=
  { idle_reset_minutes := 60, max_history_tokens := 50000,
    metadata := [], metadataFile := [],
    logs := [("whatsapp_alice",
      [{ role := "user", content := "hi", timestamp := 0 },
       { role := "assistant", content := "hello", timestamp := 1 },
       { role := "system", content := "the summary", timestamp := 2,
         type := some "compaction" },
       { role := "system", content := "Session reset: manual", timestamp := 3,
         type := some "reset" }])] }

/-- A store whose log for `whatsapp:alice` exists while the key is absent
from the metadata index (C10 witness). -/
def wC10Store : SessionStore :=
  { idle_reset_minutes := 60, max_history_tokens := 50000,
    metadata := [("whatsapp:bob",
      { session_key := "whatsapp:bob", last_activity := 7, message_count := 1,
        estimated_tokens := 2, created_at := 7, sender_name := "Bob" })],
    metadataFile := [("whatsapp:bob",
      { session_key := "whatsapp:bob", last_activity := 7, message_count := 1,
        estimated_tokens := 2, created_at := 7, sender_name := "Bob" })],
    logs := [("whatsapp_alice",
      [{ role := "system", content := "Session reset: manual", timestamp := 3,
         type := some "reset" }])] }

/-- Trivial external collaborators for the daemon witnesses. -/
def wEnv : PipelineEnv :=
  { reply := fun _ _ => "Hello!", summarize := fun _ => "summary",
    chunk := fun t => [t], sendOne := fun _ => (true, "ok"),
    freshCode := "000000" }

def wCfg : DaemonConfig :=
  { pairing_enabled := false, block_groups := true,
    rate_limit_seconds := 5, code_expiry_minutes := 10 }

/-- A daemon state whose sender "A" last got a reply at time 0 (C8 witness). -/
def wC8State : DaemonState :=
  { pairing := [], sessions := exC1Store0, last_reply_time := [("A", 0)] }

/-! # Theorems -/

/-! ## Association-list lemmas -/

theorem lookupKey_delKey_self {α : Type} (k : String) (l : List (String × α)) :
    lookupKey k (delKey k l) = none := by
  induction l with
  | nil => rfl
  | cons p rest ih =>
    by_cases h : p.1 = k
    · simpa [delKey, h] using ih
    · simp only [delKey, List.filter_cons]
      have hb : (!(p.1 == k)) = true := by simp [h]
      rw [hb]
      simp only [if_true]
      have hk : ¬ (k = p.1) := fun hk => h hk.symm
      simpa [lookupKey, hk, delKey] using ih

theorem lookupKey_delKey_ne {α : Type} {j k : String} (h : j ≠ k) (l : List (String × α)) :
    lookupKey j (delKey k l) = lookupKey j l := by
  induction l with
  | nil => rfl
  | cons p rest ih =>
    by_cases hp : p.1 = k
    · have hj : ¬ (j = p.1) := by rw [hp]; exact h
      simp only [delKey, List.filter_cons]
      have hb : (!(p.1 == k)) = false := by simp [hp]
      rw [hb]
      simpa [lookupKey, hj, delKey] using ih
    · simp only [delKey, List.filter_cons]
      have hb : (!(p.1 == k)) = true := by simp [hp]
      rw [hb]
      simp only [if_true]
      by_cases hj : j = p.1
      · simp [lookupKey, hj]
      · simpa [lookupKey, hj, delKey] using ih

theorem lookupKey_upsertKey {α : Type} (j k : String) (v : α) (l : List (String × α)) :
    lookupKey j (upsertKey k v l) = if j = k then some v else lookupKey j l := by
  by_cases h : j = k
  · simp [upsertKey, lookupKey, h]
  · simp [upsertKey, lookupKey, h, lookupKey_delKey_ne h]

theorem lookupKey_upsertKey_self {α : Type} (k : String) (v : α) (l : List (String × α)) :
    lookupKey k (upsertKey k v l) = some v := by
  simp [lookupKey_upsertKey]

theorem lookupKey_upsertKey_ne {α : Type} {j k : String} (h : j ≠ k) (v : α)
    (l : List (String × α)) :
    lookupKey j (upsertKey k v l) = lookupKey j l := by
  simp [lookupKey_upsertKey, h]

/-! ## Replay lemmas -/

theorem replay_tokens_append (l l' : List SessionMessage) :
    replay_tokens (l ++ l') = replay_tokens l + replay_tokens l' := by
  simp [replay_tokens]

theorem dropLeadingReset_append {m : SessionMessage} (hm : ¬ is_reset_marker m)
    (l : List SessionMessage) :
    dropLeadingReset (l ++ [m]) = dropLeadingReset l ++ [m] := by
  cases l with
  | nil => simp [dropLeadingReset, hm]
  | cons x rest =>
    simp only [List.cons_append, dropLeadingReset]
    split <;> simp

/-- Models `get_history` after `add_message` for the same key: the appended log,
whether or not the key is tracked in the metadata index. -/
theorem get_history_add_message (s : SessionStore) (key : String) (msg : SessionMessage) :
    get_history (add_message s key msg) key = get_history s key ++ [msg] := by
  cases hmk : lookupKey key s.metadata <;>
    simp [add_message, hmk, get_history, lookupKey_upsertKey_self]

/-! ## Derivability preservation lemmas (claim C1) -/

theorem metadataDerivable_add_message {s : SessionStore} {key : String} {msg : SessionMessage}
    (hInv : MetadataDerivable s) (hPath : PathInjAt s key)
    (hm : ¬ is_reset_marker msg) :
    MetadataDerivable (add_message s key msg) := by
  cases hmk : lookupKey key s.metadata with
  | none =>
    have h1 : (add_message s key msg).metadata = s.metadata := by
      simp [add_message, hmk]
    have h2 : (add_message s key msg).logs =
        upsertKey (session_path key)
          ((lookupKey (session_path key) s.logs).getD [] ++ [msg]) s.logs := by
      simp [add_message, hmk]
    intro k m hk
    rw [h1] at hk
    have hne : k ≠ key := by
      rintro rfl
      rw [hmk] at hk
      cases hk
    have hpathne : session_path k ≠ session_path key := fun he => hne (hPath k m hk he)
    have hist : get_history (add_message s key msg) k = get_history s k := by
      simp [get_history, h2, lookupKey_upsertKey_ne hpathne]
    rw [hist]
    exact hInv k m hk
  | some meta =>
    have h1 : (add_message s key msg).metadata =
        upsertKey key
          { meta with
            message_count := meta.message_count + 1,
            estimated_tokens := meta.estimated_tokens + estimate_tokens msg.content,
            last_activity := msg.timestamp,
            sender_name :=
              match msg.sender_name with
              | some n => if n = "" then meta.sender_name else n
              | none => meta.sender_name } s.metadata := by
      simp [add_message, hmk]
    have h2 : (add_message s key msg).logs =
        upsertKey (session_path key)
          ((lookupKey (session_path key) s.logs).getD [] ++ [msg]) s.logs := by
      simp [add_message, hmk]
    intro k m hk
    rw [h1, lookupKey_upsertKey] at hk
    by_cases hkey : k = key
    · rw [if_pos hkey] at hk
      subst hkey
      have hist : get_history (add_message s k msg) k = get_history s k ++ [msg] := by
        simp [get_history, h2, lookupKey_upsertKey_self]
      obtain ⟨hc, ht⟩ := hInv k meta hmk
      obtain rfl : ({ meta with
            message_count := meta.message_count + 1,
            estimated_tokens := meta.estimated_tokens + estimate_tokens msg.content,
            last_activity := msg.timestamp,
            sender_name :=
              match msg.sender_name with
              | some n => if n = "" then meta.sender_name else n
              | none => meta.sender_name } : SessionMetadata) = m := by
        injection hk
      rw [hist, dropLeadingReset_append hm]
      constructor
      · simp [hc]
      · simp [replay_tokens_append, ht, replay_tokens]
    · rw [if_neg hkey] at hk
      have hpathne : session_path k ≠ session_path key := fun he => hkey (hPath k m hk he)
      have hist : get_history (add_message s key msg) k = get_history s k := by
        simp [get_history, h2, lookupKey_upsertKey_ne hpathne]
      rw [hist]
      exact hInv k m hk


theorem metadataDerivable_compact_session {s : SessionStore} {key summary : String}
    {now : ℤ} (hInv : MetadataDerivable s) (hPath : PathInjAt s key) :
    MetadataDerivable (compact_session s now key summary) := by
  have hcmsg : ¬ is_reset_marker
      { role := "system", content := summary, timestamp := now,
        type := some "compaction" } := by
    simp [is_reset_marker]
  cases hmk : lookupKey key s.metadata with
  | none =>
    have h1 : (compact_session s now key summary).metadata = s.metadata := by
      simp [compact_session, hmk]
    have h2 : (compact_session s now key summary).logs =
        upsertKey (session_path key)
          [{ role := "system", content := summary, timestamp := now,
             type := some "compaction" }] s.logs := by
      simp [compact_session, hmk]
    intro k m hk
    rw [h1] at hk
    have hne : k ≠ key := by
      rintro rfl
      rw [hmk] at hk
      cases hk
    have hpathne : session_path k ≠ session_path key := fun he => hne (hPath k m hk he)
    have hist : get_history (compact_session s now key summary) k = get_history s k := by
      simp [get_history, h2, lookupKey_upsertKey_ne hpathne]
    rw [hist]
    exact hInv k m hk
  | some meta =>
    have h1 : (compact_session s now key summary).metadata =
        upsertKey key
          { meta with message_count := 1,
                      estimated_tokens := estimate_tokens summary } s.metadata := by
      simp [compact_session, hmk]
    have h2 : (compact_session s now key summary).logs =
        upsertKey (session_path key)
          [{ role := "system", content := summary, timestamp := now,
             type := some "compaction" }] s.logs := by
      simp [compact_session, hmk]
    intro k m hk
    rw [h1, lookupKey_upsertKey] at hk
    by_cases hkey : k = key
    · rw [if_pos hkey] at hk
      subst hkey
      have hist : get_history (compact_session s now k summary) k =
          [{ role := "system", content := summary, timestamp := now,
             type := some "compaction" }] := by
        simp [get_history, h2, lookupKey_upsertKey_self]
      obtain rfl : ({ meta with message_count := 1, estimated_tokens := estimate_tokens summary } : SessionMetadata) = m := by
        injection hk
      rw [hist]
      constructor
      · simp [dropLeadingReset, hcmsg]
      · simp [dropLeadingReset, hcmsg, replay_tokens]
    · rw [if_neg hkey] at hk
      have hpathne : session_path k ≠ session_path key := fun he => hkey (hPath k m hk he)
      have hist : get_history (compact_session s now key summary) k = get_history s k := by
        simp [get_history, h2, lookupKey_upsertKey_ne hpathne]
      rw [hist]
      exact hInv k m hk

theorem metadataDerivable_reset_session {s : SessionStore} {key reason : String}
    {now : ℤ} (hInv : MetadataDerivable s) (hPath : PathInjAt s key) :
    MetadataDerivable (reset_session s now key reason) := by
  cases hlog : lookupKey (session_path key) s.logs with
  | none =>
    cases hmk : lookupKey key s.metadata with
    | none =>
      have h0 : reset_session s now key reason = s := by
        simp [reset_session, hlog, hmk]
      rw [h0]
      exact hInv
    | some meta =>
      have h1 : (reset_session s now key reason).metadata = delKey key s.metadata := by
        simp [reset_session, hlog, hmk]
      have h2 : (reset_session s now key reason).logs = s.logs := by
        simp [reset_session, hlog, hmk]
      intro k m hk
      rw [h1] at hk
      have hne : k ≠ key := by
        rintro rfl
        rw [lookupKey_delKey_self] at hk
        cases hk
      rw [lookupKey_delKey_ne hne] at hk
      have hist : get_history (reset_session s now key reason) k = get_history s k := by
        simp [get_history, h2]
      rw [hist]
      exact hInv k m hk
  | some oldlog =>
    cases hmk : lookupKey key s.metadata with
    | none =>
      have h1 : (reset_session s now key reason).metadata = s.metadata := by
        simp [reset_session, hlog, hmk]
      have h2 : (reset_session s now key reason).logs =
          upsertKey (session_path key)
            [{ role := "system", content := "Session reset: " ++ reason,
               timestamp := now, type := some "reset" }] s.logs := by
        simp [reset_session, hlog, hmk]
      intro k m hk
      rw [h1] at hk
      have hne : k ≠ key := by
        rintro rfl
        rw [hmk] at hk
        cases hk
      have hpathne : session_path k ≠ session_path key := fun he => hne (hPath k m hk he)
      have hist : get_history (reset_session s now key reason) k = get_history s k := by
        simp [get_history, h2, lookupKey_upsertKey_ne hpathne]
      rw [hist]
      exact hInv k m hk
    | some meta =>
      have h1 : (reset_session s now key reason).metadata = delKey key s.metadata := by
        simp [reset_session, hlog, hmk]
      have h2 : (reset_session s now key reason).logs =
          upsertKey (session_path key)
            [{ role := "system", content := "Session reset: " ++ reason,
               timestamp := now, type := some "reset" }] s.logs := by
        simp [reset_session, hlog, hmk]
      intro k m hk
      rw [h1] at hk
      have hne : k ≠ key := by
        rintro rfl
        rw [lookupKey_delKey_self] at hk
        cases hk
      rw [lookupKey_delKey_ne hne] at hk
      have hpathne : session_path k ≠ session_path key := fun he => hne (hPath k m hk he)
      have hist : get_history (reset_session s now key reason) k = get_history s k := by
        simp [get_history, h2, lookupKey_upsertKey_ne hpathne]
      rw [hist]
      exact hInv k m hk


theorem metadataDerivable_get_or_create {s : SessionStore} {jid name : String} {now : ℤ}
    (hInv : MetadataDerivable s) (hPath : PathInjAt s (session_key_for_jid jid))
    (hresid : lookupKey (session_key_for_jid jid) s.metadata = none →
      dropLeadingReset (get_history s (session_key_for_jid jid)) = []) :
    MetadataDerivable (get_or_create_session s now jid name).1 := by
  cases hmk : lookupKey (session_key_for_jid jid) s.metadata with
  | none =>
    have h1 : (get_or_create_session s now jid name).1.metadata =
        upsertKey (session_key_for_jid jid)
          { session_key := session_key_for_jid jid, last_activity := now,
            message_count := 0, estimated_tokens := 0, created_at := now,
            sender_name := name } s.metadata := by
      simp [get_or_create_session, hmk, create_session]
    have h2 : (get_or_create_session s now jid name).1.logs = s.logs := by
      simp [get_or_create_session, hmk, create_session]
    intro k m hk
    rw [h1, lookupKey_upsertKey] at hk
    have hist : get_history (get_or_create_session s now jid name).1 k = get_history s k := by
      simp [get_history, h2]
    rw [hist]
    by_cases hkey : k = session_key_for_jid jid
    · rw [if_pos hkey] at hk
      obtain rfl : ({ session_key := session_key_for_jid jid, last_activity := now, message_count := 0, estimated_tokens := 0, created_at := now, sender_name := name } : SessionMetadata) = m := by
        injection hk
      rw [hkey, hresid hmk]
      simp [replay_tokens]
    · rw [if_neg hkey] at hk
      exact hInv k m hk
  | some meta =>
    by_cases hidle : now - meta.last_activity > s.idle_reset_minutes * 60
    · have hInvR : MetadataDerivable (reset_session s now (session_key_for_jid jid) "idle timeout") :=
        metadataDerivable_reset_session hInv hPath
      have h0 : get_or_create_session s now jid name =
          create_session (reset_session s now (session_key_for_jid jid) "idle timeout")
            now (session_key_for_jid jid) name := by
        simp [get_or_create_session, hmk, hidle]
      have h1 : (get_or_create_session s now jid name).1.metadata =
          upsertKey (session_key_for_jid jid)
            { session_key := session_key_for_jid jid, last_activity := now,
              message_count := 0, estimated_tokens := 0, created_at := now,
              sender_name := name }
            (reset_session s now (session_key_for_jid jid) "idle timeout").metadata := by
        rw [h0]
        simp [create_session]
      have h2 : (get_or_create_session s now jid name).1.logs =
          (reset_session s now (session_key_for_jid jid) "idle timeout").logs := by
        rw [h0]
        simp [create_session]
      have hdrop : dropLeadingReset
          (get_history (reset_session s now (session_key_for_jid jid) "idle timeout")
            (session_key_for_jid jid)) = [] := by
        cases hlog : lookupKey (session_path (session_key_for_jid jid)) s.logs with
        | none =>
          have hl : (reset_session s now (session_key_for_jid jid) "idle timeout").logs = s.logs := by
            cases hmk2 : lookupKey (session_key_for_jid jid) s.metadata <;>
              simp [reset_session, hlog, hmk2]
          simp [get_history, hl, hlog, dropLeadingReset]
        | some oldlog =>
          have hl : (reset_session s now (session_key_for_jid jid) "idle timeout").logs =
              upsertKey (session_path (session_key_for_jid jid))
                [{ role := "system", content := "Session reset: " ++ "idle timeout",
                   timestamp := now, type := some "reset" }] s.logs := by
            cases hmk2 : lookupKey (session_key_for_jid jid) s.metadata <;>
              simp [reset_session, hlog, hmk2]
          simp [get_history, hl, lookupKey_upsertKey_self, dropLeadingReset, is_reset_marker]
      intro k m hk
      rw [h1, lookupKey_upsertKey] at hk
      have hist : get_history (get_or_create_session s now jid name).1 k =
          get_history (reset_session s now (session_key_for_jid jid) "idle timeout") k := by
        simp [get_history, h2]
      rw [hist]
      by_cases hkey : k = session_key_for_jid jid
      · rw [if_pos hkey] at hk
        obtain rfl : ({ session_key := session_key_for_jid jid, last_activity := now, message_count := 0, estimated_tokens := 0, created_at := now, sender_name := name } : SessionMetadata) = m := by
          injection hk
        rw [hkey, hdrop]
        simp [replay_tokens]
      · rw [if_neg hkey] at hk
        exact hInvR k m hk
    · have h0 : (get_or_create_session s now jid name).1 = s := by
        simp [get_or_create_session, hmk, hidle]
      rw [h0]
      exact hInv


/-! ## Claims about the session store -/

theorem api_messages_of_eq_filterMap (l : List SessionMessage)
    (hroles : ∀ m ∈ l, m.role = "user" ∨ m.role = "assistant" ∨ m.role = "system") :
    api_messages_of l = l.filterMap reply_input_spec := by
  induction l with
  | nil => rfl
  | cons x rest ih =>
    have hx := hroles x (List.mem_cons_self x rest)
    have hrest : ∀ m ∈ rest, m.role = "user" ∨ m.role = "assistant" ∨ m.role = "system" :=
      fun m hm => hroles m (List.mem_cons_of_mem x hm)
    by_cases h1 : x.role = "user" ∨ x.role = "assistant"
    · simp [api_messages_of, reply_input_spec, h1, List.filterMap_cons, ih hrest]
    · have hsys : x.role = "system" := by tauto
      by_cases h2 : x.type = some "compaction"
      · simp [api_messages_of, reply_input_spec, h1, hsys, h2, List.filterMap_cons, ih hrest]
      · simp [api_messages_of, reply_input_spec, h1, hsys, h2, List.filterMap_cons, ih hrest]

/-- C7: the reply-input projection maps each history message independently,
in order: `user`/`assistant` pass through unchanged, a `system` message of
kind `compaction` becomes a `user` message with the fixed bracketed summary
prefix, and `system` messages of kind `reset` or any other kind are dropped
(for histories whose roles lie in the data model's three roles). -/
theorem claim_C7 (s : SessionStore) (key : String)
    (hroles : ∀ m ∈ get_history s key,
      m.role = "user" ∨ m.role = "assistant" ∨ m.role = "system") :
    get_history_as_api_messages s key = (get_history s key).filterMap reply_input_spec :=
  api_messages_of_eq_filterMap (get_history s key) hroles

/-- C7 witness: a history holding a user message, an assistant message, a
compaction summary and a reset marker projects to exactly the three reply
inputs the specification prescribes. -/
theorem claim_C7_witness :
    (∀ m ∈ get_history wC7Store "whatsapp:alice",
      m.role = "user" ∨ m.role = "assistant" ∨ m.role = "system") ∧
    get_history_as_api_messages wC7Store "whatsapp:alice" =
      [{ role := "user", content := "hi" },
       { role := "assistant", content := "hello" },
       { role := "user", content := "[Previous conversation summary: the summary]" }] :=
  ⟨by decide,
   by
    rw [claim_C7 wC7Store "whatsapp:alice" (by decide)]
    decide⟩

/-- C10: `add_message` on a key that has no metadata entry still appends to
that key's durable log, while the metadata index and its persisted mirror
are left entirely unchanged — no entry is created. -/
theorem claim_C10 (s : SessionStore) (key : String) (msg : SessionMessage)
    (hmk : lookupKey key s.metadata = none) :
    (add_message s key msg).metadata = s.metadata ∧
    (add_message s key msg).metadataFile = s.metadataFile ∧
    get_history (add_message s key msg) key = get_history s key ++ [msg] := by
  refine ⟨?_, ?_, ?_⟩ <;>
    simp [add_message, hmk, get_history, lookupKey_upsertKey_self]

/-- C10 witness: appending to untracked `whatsapp:alice` in a store that
tracks only `whatsapp:bob` grows alice's log and leaves the index alone. -/
theorem claim_C10_witness :
    lookupKey "whatsapp:alice" wC10Store.metadata = none ∧
    (add_message wC10Store "whatsapp:alice" exC1Msg).metadata = wC10Store.metadata ∧
    (add_message wC10Store "whatsapp:alice" exC1Msg).metadataFile = wC10Store.metadataFile ∧
    get_history (add_message wC10Store "whatsapp:alice" exC1Msg) "whatsapp:alice" =
      get_history wC10Store "whatsapp:alice" ++ [exC1Msg] :=
  ⟨by decide, claim_C10 wC10Store "whatsapp:alice" exC1Msg (by decide)⟩


/-- C3: `get_or_create_session` creates a fresh session with
`created_at = last_activity = now` when none exists; resets and recreates
under the same key when the idle time strictly exceeds the configured
limit; and otherwise returns the existing key with the store untouched. -/
theorem claim_C3 (s : SessionStore) (now : ℤ) (jid name : String) :
    (lookupKey (session_key_for_jid jid) s.metadata = none →
      get_or_create_session s now jid name = create_session s now (session_key_for_jid jid) name ∧
      lookupKey (session_key_for_jid jid) (get_or_create_session s now jid name).1.metadata =
        some { session_key := session_key_for_jid jid, last_activity := now, message_count := 0, estimated_tokens := 0, created_at := now, sender_name := name } ∧
      (get_or_create_session s now jid name).2 = session_key_for_jid jid) ∧
    (∀ meta, lookupKey (session_key_for_jid jid) s.metadata = some meta →
      now - meta.last_activity > s.idle_reset_minutes * 60 →
      get_or_create_session s now jid name =
        create_session (reset_session s now (session_key_for_jid jid) "idle timeout")
          now (session_key_for_jid jid) name ∧
      lookupKey (session_key_for_jid jid) (get_or_create_session s now jid name).1.metadata =
        some { session_key := session_key_for_jid jid, last_activity := now, message_count := 0, estimated_tokens := 0, created_at := now, sender_name := name } ∧
      (get_or_create_session s now jid name).2 = session_key_for_jid jid) ∧
    (∀ meta, lookupKey (session_key_for_jid jid) s.metadata = some meta →
      ¬ (now - meta.last_activity > s.idle_reset_minutes * 60) →
      get_or_create_session s now jid name = (s, session_key_for_jid jid)) := by
  refine ⟨fun hmk => ?_, fun meta hmk hidle => ?_, fun meta hmk hidle => ?_⟩
  · refine ⟨by simp [get_or_create_session, hmk], ?_, by simp [get_or_create_session, hmk, create_session]⟩
    simp [get_or_create_session, hmk, create_session, lookupKey_upsertKey_self]
  · refine ⟨by simp [get_or_create_session, hmk, hidle], ?_, by simp [get_or_create_session, hmk, hidle, create_session]⟩
    simp [get_or_create_session, hmk, hidle, create_session, lookupKey_upsertKey_self]
  · simp [get_or_create_session, hmk, hidle]

/-- C3 witness: a session idle since time 0 observed at time 3601 with a
60-minute idle limit is reset and recreated under the same key with fresh
`created_at = last_activity = 3601` metadata. -/
theorem claim_C3_witness :
    get_or_create_session wC3Store 3601 "alice" "Alice" =
      create_session (reset_session wC3Store 3601 "whatsapp:alice" "idle timeout")
        3601 "whatsapp:alice" "Alice" ∧
    lookupKey "whatsapp:alice" (get_or_create_session wC3Store 3601 "alice" "Alice").1.metadata =
      some { session_key := "whatsapp:alice", last_activity := 3601, message_count := 0, estimated_tokens := 0, created_at := 3601, sender_name := "Alice" } ∧
    (get_or_create_session wC3Store 3601 "alice" "Alice").2 = "whatsapp:alice" := by
  have h := (claim_C3 wC3Store 3601 "alice" "Alice").2.1
    { session_key := "whatsapp:alice", last_activity := 0, message_count := 1, estimated_tokens := 1, created_at := 0, sender_name := "Alice" }
    (by decide) (by decide)
  simpa using h

/-- C6: compacting with S1 and then with S2 leaves the durable log holding
exactly one `system`/`compaction` message whose content is S2, and the
metadata records `message_count = 1` and `estimated_tokens = len(S2) // 4`;
S1 is fully discarded. -/
theorem claim_C6 (s : SessionStore) (key S1 S2 : String) (t1 t2 : ℤ)
    (meta : SessionMetadata) (hmk : lookupKey key s.metadata = some meta) :
    get_history (compact_session (compact_session s t1 key S1) t2 key S2) key =
      [{ role := "system", content := S2, timestamp := t2, type := some "compaction" }] ∧
    (lookupKey key (compact_session (compact_session s t1 key S1) t2 key S2).metadata).map
        (fun m => (m.message_count, m.estimated_tokens)) = some (1, S2.length / 4) := by
  have hmk1 : lookupKey key (compact_session s t1 key S1).metadata =
      some { meta with message_count := 1, estimated_tokens := estimate_tokens S1 } := by
    simp [compact_session, hmk, lookupKey_upsertKey_self]
  generalize hgen : compact_session s t1 key S1 = s1 at hmk1 ⊢
  constructor
  · simp [compact_session, hmk1, get_history, lookupKey_upsertKey_self]
  · simp [compact_session, hmk1, lookupKey_upsertKey_self, estimate_tokens]

/-- C6 witness: double compaction of the tracked session of `wC3Store`. -/
theorem claim_C6_witness :
    get_history (compact_session (compact_session wC3Store 10 "whatsapp:alice" "first summary")
        11 "whatsapp:alice" "second one") "whatsapp:alice" =
      [{ role := "system", content := "second one", timestamp := 11, type := some "compaction" }] ∧
    (lookupKey "whatsapp:alice"
        (compact_session (compact_session wC3Store 10 "whatsapp:alice" "first summary")
          11 "whatsapp:alice" "second one").metadata).map
        (fun m => (m.message_count, m.estimated_tokens)) = some (1, 2) :=
  claim_C6 wC3Store "whatsapp:alice" "first summary" "second one" 10 11
    { session_key := "whatsapp:alice", last_activity := 0, message_count := 1, estimated_tokens := 1, created_at := 0, sender_name := "Alice" }
    (by decide)


/-- C1 counterexample: starting from an empty store, the operation sequence
get_or_create, add_message, reset_session, get_or_create ends in a state
whose tracked metadata records 0 messages and 0 tokens while replaying the
durable log from scratch yields 1 message ("Session reset: manual") and 5
tokens — so the metadata counters are not derivable by a full replay, as
the claim states. -/
theorem claim_C1_counterexample :
    (lookupKey exC1Key exC1Store4.metadata).map
        (fun m => (m.message_count, m.estimated_tokens)) = some (0, 0) ∧
    (get_history exC1Store4 exC1Key).length = 1 ∧
    replay_tokens (get_history exC1Store4 exC1Key) = 5 ∧
    (lookupKey exC1Key exC1Store4.metadata).map (fun m => m.message_count) ≠
      some (get_history exC1Store4 exC1Key).length := by
  refine ⟨by decide, by decide, by decide, by decide⟩

/-- C1 (amended): the metadata counters are derivable by replaying the log
with the synthetic reset marker discounted, and every store operation
preserves this: add_message (for messages that are not themselves reset
markers), compact_session, reset_session, and get_or_create_session
(provided an untracked key's residual log holds at most the reset marker),
each under the proviso that no other tracked key collides with the operated
key's log file name. -/
theorem claim_C1_amended (s : SessionStore) (key jid name reason summary : String)
    (msg : SessionMessage) (now : ℤ) (hInv : MetadataDerivable s) :
    (PathInjAt s key → ¬ is_reset_marker msg →
      MetadataDerivable (add_message s key msg)) ∧
    (PathInjAt s key → MetadataDerivable (compact_session s now key summary)) ∧
    (PathInjAt s key → MetadataDerivable (reset_session s now key reason)) ∧
    (PathInjAt s (session_key_for_jid jid) →
      (lookupKey (session_key_for_jid jid) s.metadata = none →
        dropLeadingReset (get_history s (session_key_for_jid jid)) = []) →
      MetadataDerivable (get_or_create_session s now jid name).1) :=
  ⟨fun hP hm => metadataDerivable_add_message hInv hP hm,
   fun hP => metadataDerivable_compact_session hInv hP,
   fun hP => metadataDerivable_reset_session hInv hP,
   fun hP hr => metadataDerivable_get_or_create hInv hP hr⟩

theorem metadataDerivable_exC1Store2 : MetadataDerivable exC1Store2 := by
  intro k m hk
  have hmeta : exC1Store2.metadata =
      [("whatsapp:alice",
        { session_key := "whatsapp:alice", last_activity := 1, message_count := 1, estimated_tokens := 1, created_at := 0, sender_name := "Alice" })] := by
    decide
  rw [hmeta] at hk
  simp only [lookupKey] at hk
  split at hk
  · next heq =>
    obtain rfl : ({ session_key := "whatsapp:alice", last_activity := 1, message_count := 1, estimated_tokens := 1, created_at := 0, sender_name := "Alice" } : SessionMetadata) = m := by
      injection hk
    subst heq
    refine ⟨by decide, by decide⟩
  · exact absurd hk (by simp)

theorem pathInjAt_exC1Store2 : PathInjAt exC1Store2 exC1Key := by
  intro k m hk hpath
  have hmeta : exC1Store2.metadata =
      [("whatsapp:alice",
        { session_key := "whatsapp:alice", last_activity := 1, message_count := 1, estimated_tokens := 1, created_at := 0, sender_name := "Alice" })] := by
    decide
  rw [hmeta] at hk
  simp only [lookupKey] at hk
  split at hk
  · next heq =>
    subst heq
    decide
  · exact absurd hk (by simp)

/-- C1 witness: the concrete one-session store after create and one append
satisfies the amended derivability invariant, and `add_message` with an
ordinary assistant message preserves it. -/
theorem claim_C1_witness :
    MetadataDerivable exC1Store2 ∧
    MetadataDerivable (add_message exC1Store2 exC1Key
      { role := "assistant", content := "hi there", timestamp := 5 }) :=
  ⟨metadataDerivable_exC1Store2,
   (claim_C1_amended exC1Store2 exC1Key "alice" "Alice" "manual" "a summary"
      { role := "assistant", content := "hi there", timestamp := 5 } 5
      metadataDerivable_exC1Store2).1 pathInjAt_exC1Store2 (by decide)⟩


/-! ## Claims about the access-control store -/

theorem get_contact_map_upd (upd : Contact → Contact)
    (hjid : ∀ c, (upd c).jid = c.jid) (jid : String) :
    ∀ tbl : List Contact, List.any tbl (fun c => c.jid == jid) = true →
      get_contact (List.map (fun c => if c.jid = jid then upd c else c) tbl) jid =
        upd (get_contact tbl jid) := by
  intro tbl
  induction tbl with
  | nil => intro h; simp at h
  | cons c rest ih =>
    intro hany
    rw [List.map_cons]
    by_cases hc : c.jid = jid
    · have hp : ((if c.jid = jid then upd c else c).jid == jid) = true := by
        simp [hc, hjid]
      have hp0 : (c.jid == jid) = true := by simp [hc]
      unfold get_contact
      simp only [List.find?]
      rw [hp, hp0]
      simp [hc]
    · have hp : ((if c.jid = jid then upd c else c).jid == jid) = false := by
        simp [hc]
      have hp0 : (c.jid == jid) = false := by simp [hc]
      have hrest : List.any rest (fun c => c.jid == jid) = true := by
        rcases List.any_eq_true.1 hany with ⟨x, hx, hpx⟩
        rcases List.mem_cons.1 hx with rfl | hx'
        · exact absurd (by simpa using hpx) hc
        · exact List.any_eq_true.2 ⟨x, hx', hpx⟩
      have h2 := ih hrest
      unfold get_contact at h2 ⊢
      simp only [List.find?]
      rw [hp, hp0]
      exact h2

theorem get_contact_update_status (tbl : PairingTable) (jid : String)
    (st : ContactStatus) :
    (get_contact (update_status tbl jid st) jid).status = st := by
  unfold update_status
  by_cases hany : List.any tbl (fun c => c.jid == jid) = true
  · rw [if_pos hany,
      get_contact_map_upd (fun c => { c with status := st }) (fun _ => rfl) jid tbl hany]
  · rw [if_neg hany]
    have hnone : List.find? (fun c => c.jid == jid) tbl = none :=
      List.find?_eq_none.2 fun x hx hpx => hany (List.any_eq_true.2 ⟨x, hx, hpx⟩)
    unfold get_contact
    rw [List.find?_append, hnone]
    simp [List.find?]

/-- C4: a Pending contact whose code expiry lies strictly in the past is
returned as Unknown by `check_access` and its persisted status becomes
Unknown; an Approved or Blocked contact is returned as-is with the stored
table untouched. -/
theorem claim_C4 (tbl : PairingTable) (now : ℤ) (jid : String) :
    ((get_contact tbl jid).status = ContactStatus.pending →
      ∀ e, (get_contact tbl jid).code_expires_at = some e → now > e →
        check_access tbl now jid =
          (update_status tbl jid ContactStatus.unknown, ContactStatus.unknown) ∧
        (get_contact (check_access tbl now jid).1 jid).status = ContactStatus.unknown) ∧
    ((get_contact tbl jid).status = ContactStatus.approved ∨
      (get_contact tbl jid).status = ContactStatus.blocked →
      check_access tbl now jid = (tbl, (get_contact tbl jid).status)) := by
  constructor
  · intro hst e he hnow
    have hca : check_access tbl now jid =
        (update_status tbl jid ContactStatus.unknown, ContactStatus.unknown) := by
      simp [check_access, hst, he, hnow]
    exact ⟨hca, by rw [hca]; exact get_contact_update_status tbl jid ContactStatus.unknown⟩
  · rintro (hst | hst) <;> simp [check_access, hst]

/-- C4 witness: Carol is Pending with a code that expired at time 10; at
time 50 `check_access` returns Unknown and persists Unknown. -/
theorem claim_C4_witness :
    check_access wC4Table 50 "carol" =
      (update_status wC4Table "carol" ContactStatus.unknown, ContactStatus.unknown) ∧
    (get_contact (check_access wC4Table 50 "carol").1 "carol").status =
      ContactStatus.unknown :=
  (claim_C4 wC4Table 50 "carol").1 (by decide) 10 (by decide) (by decide)


theorem get_contact_approve_rows (tbl : PairingTable) (now : ℤ) (jid : String)
    (hany : List.any tbl (fun x => x.jid == jid) = true) :
    get_contact (approve_rows tbl now jid) jid =
      { get_contact tbl jid with status := ContactStatus.approved,
                                 approved_at := some now } := by
  unfold approve_rows
  exact get_contact_map_upd
    (fun x => { x with status := ContactStatus.approved, approved_at := some now })
    (fun _ => rfl) jid tbl hany

/-- C5 counterexample: at time 50, Bob is a Pending contact holding code
"123456" that is unexpired (expiry 100), yet `approve_by_code` returns
`none` and leaves the table unchanged, because the scan finds Alice's
expired row bearing the same code first — refuting the claim that whenever
some Pending contact holds a matching unexpired code, that contact is
approved and its id returned. -/
theorem claim_C5_counterexample :
    exC5ContactB ∈ exC5Table ∧
    exC5ContactB.status = ContactStatus.pending ∧
    exC5ContactB.pairing_code = some "123456" ∧
    exC5ContactB.code_expires_at = some 100 ∧
    ¬ ((50 : ℤ) > 100) ∧
    approve_by_code exC5Table 50 "123456" = (exC5Table, none) := by
  refine ⟨by decide, by decide, by decide, by decide, by decide, by decide⟩

/-- C5 (amended): `approve_by_code` acts on the first Pending contact in
table-scan order whose `pairing_code` matches: if that contact's code is
unexpired (or carries no expiry) it is set to Approved with
`approved_at = now` and its id is returned; if its code is past expiry, or
no Pending contact matches at all, the call returns `none` with the stored
table unchanged. When a unique Pending contact bears the code this
coincides with the claim as stated. -/
theorem claim_C5_amended (tbl : PairingTable) (now : ℤ) (code : String) :
    (∀ c, find_pending_by_code tbl code = some c →
      (∀ e, c.code_expires_at = some e → ¬ now > e →
        approve_by_code tbl now code = (approve_rows tbl now c.jid, some c.jid) ∧
        (get_contact (approve_rows tbl now c.jid) c.jid).status = ContactStatus.approved ∧
        (get_contact (approve_rows tbl now c.jid) c.jid).approved_at = some now) ∧
      (c.code_expires_at = none →
        approve_by_code tbl now code = (approve_rows tbl now c.jid, some c.jid) ∧
        (get_contact (approve_rows tbl now c.jid) c.jid).status = ContactStatus.approved ∧
        (get_contact (approve_rows tbl now c.jid) c.jid).approved_at = some now) ∧
      (∀ e, c.code_expires_at = some e → now > e →
        approve_by_code tbl now code = (tbl, none))) ∧
    (find_pending_by_code tbl code = none →
      approve_by_code tbl now code = (tbl, none)) := by
  constructor
  · intro c hfind
    have hmem : c ∈ tbl := List.mem_of_find?_eq_some hfind
    have hany : List.any tbl (fun x => x.jid == c.jid) = true :=
      List.any_eq_true.2 ⟨c, hmem, by simp⟩
    have happ := get_contact_approve_rows tbl now c.jid hany
    refine ⟨fun e he hne => ?_, fun hnone => ?_, fun e he hgt => ?_⟩
    · exact ⟨by simp [approve_by_code, hfind, he, hne], by rw [happ], by rw [happ]⟩
    · exact ⟨by simp [approve_by_code, hfind, hnone], by rw [happ], by rw [happ]⟩
    · simp [approve_by_code, hfind, he, hgt]
  · intro hfind
    simp [approve_by_code, hfind]

/-- C5 witness: a table holding the single Pending contact Bob with
unexpired code "654321"; at time 50 the code approves Bob. -/
theorem claim_C5_witness :
    approve_by_code wC5Table 50 "654321" = (approve_rows wC5Table 50 "bob", some "bob") ∧
    (get_contact (approve_rows wC5Table 50 "bob") "bob").status = ContactStatus.approved ∧
    (get_contact (approve_rows wC5Table 50 "bob") "bob").approved_at = some 50 := by
  have h := ((claim_C5_amended wC5Table 50 "654321").1 wC5Contact (by decide)).1
    100 (by decide) (by decide)
  simpa [wC5Contact] using h


/-! ## Claims about the daemon pipeline -/

/-- C2: at the delivery step, an assistant message carrying the full
unchunked reply text is appended to the session log if and only if at
least one chunk was delivered successfully, and the sender's rate-limit
timestamp is set to the current time unconditionally. -/
theorem claim_C2 (env : PipelineEnv) (now : ℤ)
    (sender_jid sender_name session_key : String) (st : DaemonState) :
    (get_history (reply_and_deliver env now sender_jid sender_name session_key st).sessions
        session_key =
      get_history st.sessions session_key ++
        [{ role := "assistant",
           content := env.reply (get_history_as_api_messages st.sessions session_key) sender_name,
           timestamp := now }] ↔
      List.any (send_chunked env.sendOne
          (env.chunk (env.reply (get_history_as_api_messages st.sessions session_key) sender_name)))
        (fun r => r.1) = true) ∧
    lookupKey sender_jid
      (reply_and_deliver env now sender_jid sender_name session_key st).last_reply_time =
      some now := by
  by_cases hsucc : List.any (send_chunked env.sendOne
      (env.chunk (env.reply (get_history_as_api_messages st.sessions session_key) sender_name)))
      (fun r => r.1) = true
  · have hsess : (reply_and_deliver env now sender_jid sender_name session_key st).sessions =
        add_message st.sessions session_key
          { role := "assistant",
            content := env.reply (get_history_as_api_messages st.sessions session_key) sender_name,
            timestamp := now } := by
      simp [reply_and_deliver, hsucc]
    constructor
    · rw [hsess, get_history_add_message]
      exact iff_of_true rfl hsucc
    · simp [reply_and_deliver, lookupKey_upsertKey_self]
  · have hsess : (reply_and_deliver env now sender_jid sender_name session_key st).sessions =
        st.sessions := by
      simp [reply_and_deliver, hsucc]
    constructor
    · rw [hsess]
      apply iff_of_false
      · intro h
        have hlen := congrArg List.length h
        simp [List.length_append] at hlen
      · exact hsucc
    · simp [reply_and_deliver, lookupKey_upsertKey_self]

/-- C8: with the self-message and group filters passed, a message is
admitted to the per-sender pipeline if and only if `now` minus the
sender's last recorded reply time (0 for unseen senders) is at least
`rate_limit_seconds`; a denied message leaves the whole daemon state —
including the stored timestamp — unchanged. -/
theorem claim_C8 (cfg : DaemonConfig) (env : PipelineEnv) (now : ℤ)
    (sender_jid content sender_name media_type : String) (is_group : Bool)
    (timestamp : ℤ) (st : DaemonState)
    (hg : (is_group && cfg.block_groups) = false) :
    (now - (lookupKey sender_jid st.last_reply_time).getD 0 < cfg.rate_limit_seconds →
      process_message cfg env now sender_jid content false is_group sender_name
        timestamp media_type st = st) ∧
    (cfg.rate_limit_seconds ≤ now - (lookupKey sender_jid st.last_reply_time).getD 0 →
      process_message cfg env now sender_jid content false is_group sender_name
        timestamp media_type st =
      process_message_locked cfg env now sender_jid content sender_name
        timestamp media_type st) := by
  constructor
  · intro h
    simp [process_message, hg, h]
  · intro h
    simp [process_message, hg, not_lt.2 h]

/-- C8 witness: with `rate_limit_seconds = 5` and a reply recorded for
sender "A" at time 0, a message at time 4 is dropped with the state
untouched, and a message at time 5 enters the pipeline. -/
theorem claim_C8_witness :
    process_message wCfg wEnv 4 "A" "Hi" false false "Ann" 4 "" wC8State = wC8State ∧
    process_message wCfg wEnv 5 "A" "Hi" false false "Ann" 5 "" wC8State =
      process_message_locked wCfg wEnv 5 "A" "Hi" "Ann" 5 "" wC8State :=
  ⟨(claim_C8 wCfg wEnv 4 "A" "Hi" "Ann" "" false 4 wC8State (by decide)).1 (by decide),
   (claim_C8 wCfg wEnv 5 "A" "Hi" "Ann" "" false 5 wC8State (by decide)).2 (by decide)⟩

end AutoReply
